import Mathlib

/-!
# Verification of the GKF Knowledge Reasoning & Recommendation core

Shallow embedding of the reasoning/integration layer of the GKF backend
(`reasoning_engine.py`, `knowledge_integrator.py`, `triplestore_manager.py`,
and the depth validation of the `/api/skills/{id}/related` endpoint in
`main.py`).

Embedding conventions:

* RDF terms (URIs, literals) are `String`s; an RDF triple is the structure
  `Triple`.  A graph (or one named-graph partition) is a `List Triple`
  evaluated with set semantics: SPARQL basic-graph-pattern solutions are
  deduplicated wherever the corresponding SPARQL result is a solution set.
* The SPARQL queries issued by the Python code are embedded by evaluating
  their algebra directly over the triple list: basic graph patterns become
  filters, `OPTIONAL` becomes a left join, `UNION` becomes concatenation,
  property path `p+` becomes a saturating expansion, `p{1,d}` a bounded
  expansion, `COUNT(DISTINCT ?v)` a deduplicated count that ignores unbound
  variables.
* A `SELECT ... LIMIT n` query without `ORDER BY` returns its solution set
  in an implementation-defined order.  Such queries take the store's row
  enumeration as an explicit argument (`rows`), constrained in theorems to
  be a permutation of the embedded solution set.
* Python `float` arithmetic is modelled exactly over `ℚ`; all numbers the
  code manipulates (0.7, 0.3, counts/100, percentages) are exact decimals.
* The network boundary of `TripleStoreManager` is modelled by passing the
  store's response as an `Except` value: `Except.error` is a raised
  exception (network failure, rejected query), `Except.ok` the payload.
-/

/-- An RDF triple as handled by rdflib / the SPARQL endpoint. -/
structure Triple where
  subj : String
  pred : String
  obj : String
deriving DecidableEq, Repr

/-- Ontology namespace used by all queries: `PREFIX gkf: <http://gkf.org/ontology/it#>`. -/
def gkfNS : String := "http://gkf.org/ontology/it#"

def rdfTypeP : String := "http://www.w3.org/1999/02/22-rdf-syntax-ns#type"

def prerequisiteP : String := gkfNS ++ "prerequisite"

def skillNameP : String := gkfNS ++ "skillName"

def relatedToP : String := gkfNS ++ "relatedTo"

def requiresP : String := gkfNS ++ "requires"

def teachesP : String := gkfNS ++ "teaches"

def courseNameP : String := gkfNS ++ "courseName"

def difficultyP : String := gkfNS ++ "difficulty"

def courseC : String := gkfNS ++ "Course"

def interactionC : String := gkfNS ++ "Interaction"

def foundationalKnowledgeC : String := gkfNS ++ "FoundationalKnowledge"

/-- Named graph holding foundational knowledge (`KnowledgeIntegrator.foundational_graph_uri`). -/
def foundationalGraphURI : String := "http://gkf.org/graphs/foundational"

/-- Named graph holding experiential knowledge (`KnowledgeIntegrator.experiential_graph_uri`). -/
def experientialGraphURI : String := "http://gkf.org/graphs/experiential"

/-! ## TripleStoreManager (`triplestore_manager.py`)

`query` and `upload_graph`/`update` wrap every store round trip in
`try/except`.  The store's behaviour is the `Except` argument: an
exception raised by the HTTP layer is `Except.error`. -/

/-- `TripleStoreManager.query`: returns `results['results']['bindings']` on
success; on any exception it logs and returns the empty list (lines 93–95). -/
def tsm_query {α : Type} (response : Except String (List α)) : List α :=
  match response with
  | Except.ok bindings => bindings
  | Except.error _ => []

/-- `TripleStoreManager.upload_graph`: returns `True` on success; on any
exception it logs and returns `False` (lines 70–72). -/
def tsm_upload_graph (response : Except String Unit) : Bool :=
  match response with
  | Except.ok _ => true
  | Except.error _ => false

/-- `TripleStoreManager.update`: returns `True` on success; on any exception
it logs and returns `False` (lines 115–117). -/
def tsm_update (response : Except String Unit) : Bool :=
  match response with
  | Except.ok _ => true
  | Except.error _ => false

/-! ## Generic list facts used throughout -/

theorem length_eq_of_nodup_of_mem_iff {α : Type} [DecidableEq α] {l₁ l₂ : List α}
    (h₁ : l₁.Nodup) (h₂ : l₂.Nodup) (h : ∀ a, a ∈ l₁ ↔ a ∈ l₂) :
    l₁.length = l₂.length := by
  have hfin : l₁.toFinset = l₂.toFinset := by
    apply Finset.ext
    intro a
    simp only [List.mem_toFinset]
    exact h a
  calc l₁.length = l₁.toFinset.card := (List.toFinset_card_of_nodup h₁).symm
    _ = l₂.toFinset.card := by rw [hfin]
    _ = l₂.length := List.toFinset_card_of_nodup h₂

theorem dedup_length_eq_of_mem_iff {α : Type} [DecidableEq α] {l₁ l₂ : List α}
    (h₂ : l₂.Nodup) (h : ∀ a, a ∈ l₁ ↔ a ∈ l₂) :
    l₁.dedup.length = l₂.length := by
  apply length_eq_of_nodup_of_mem_iff (List.nodup_dedup l₁) h₂
  intro a
  rw [List.mem_dedup]
  exact h a

/-! ## ReasoningEngine.infer_skill_prerequisites (`reasoning_engine.py` 28–44)

The method sends
`SELECT DISTINCT ?prereq ?skillName WHERE { <skill> gkf:prerequisite+ ?prereq .
?prereq gkf:skillName ?skillName }` and extracts the `prereq` column.

The property path `gkf:prerequisite+` evaluates (SPARQL 1.1 arbitrary-length
path semantics) to the set of nodes reachable from `skill` through one or
more `prerequisite` edges.  We embed it as a saturating expansion of the
one-step successor map: enough iterations are taken for the expansion to
reach its fixpoint, which `reachPlus_closeStep_fixpoint` below proves. -/

/-- Objects `y` of triples `⟨x, gkf:prerequisite, y⟩` in the store: the
one-step `prerequisite` successors of `x` (a solution set, hence `dedup`). -/
def prereqSuccs (store : List Triple) (x : String) : List String :=
  ((store.filter (fun t => t.subj == x && t.pred == prerequisiteP)).map (·.obj)).dedup

/-- One saturation round: keep the current node set and add every one-step
`prerequisite` successor of a current node. -/
def closeStep (store : List Triple) (cur : List String) : List String :=
  (cur ++ cur.flatMap (prereqSuccs store)).dedup

/-- Iteration budget that guarantees saturation: the number of distinct
triple objects bounds every reachable node set. -/
def reachFuel (store : List Triple) : Nat :=
  (store.map (·.obj)).dedup.length

/-- Nodes reachable from `x` through one or more `prerequisite` edges:
the value of the property path `<x> gkf:prerequisite+ ?prereq`. -/
def reachPlus (store : List Triple) (x : String) : List String :=
  (closeStep store)^[reachFuel store] (prereqSuccs store x)

/-- The `prerequisite` edge relation of the store. -/
def PrereqRel (store : List Triple) (a b : String) : Prop :=
  (Triple.mk a prerequisiteP b) ∈ store

/-- `gkf:skillName` values attached to node `x` (a solution set). -/
def namesOf (store : List Triple) (x : String) : List String :=
  ((store.filter (fun t => t.subj == x && t.pred == skillNameP)).map (·.obj)).dedup

/-- The solution rows `(?prereq, ?skillName)` of the prerequisite query:
one row per reachable node and name of that node. -/
def prereqRows (store : List Triple) (skill : String) : List (String × String) :=
  (reachPlus store skill).flatMap (fun p => (namesOf store p).map (fun n => (p, n)))

/-- `ReasoningEngine.infer_skill_prerequisites`: the `prereq` column of the
solution rows (`[result['prereq']['value'] for result in results]`). -/
def infer_skill_prerequisites (store : List Triple) (skill : String) : List String :=
  (prereqRows store skill).map (·.1)

theorem mem_prereqSuccs {store : List Triple} {x y : String} :
    y ∈ prereqSuccs store x ↔ (Triple.mk x prerequisiteP y) ∈ store := by
  simp only [prereqSuccs, List.mem_dedup, List.mem_map, List.mem_filter,
    Bool.and_eq_true, beq_iff_eq]
  constructor
  · rintro ⟨t, ⟨ht, hs, hp⟩, ho⟩
    cases t
    subst hs; subst hp; subst ho
    exact ht
  · intro h
    exact ⟨Triple.mk x prerequisiteP y, ⟨h, rfl, rfl⟩, rfl⟩

theorem mem_namesOf {store : List Triple} {x n : String} :
    n ∈ namesOf store x ↔ (Triple.mk x skillNameP n) ∈ store := by
  simp only [namesOf, List.mem_dedup, List.mem_map, List.mem_filter,
    Bool.and_eq_true, beq_iff_eq]
  constructor
  · rintro ⟨t, ⟨ht, hs, hp⟩, ho⟩
    cases t
    subst hs; subst hp; subst ho
    exact ht
  · intro h
    exact ⟨Triple.mk x skillNameP n, ⟨h, rfl, rfl⟩, rfl⟩

theorem mem_closeStep {store : List Triple} {cur : List String} {y : String} :
    y ∈ closeStep store cur ↔ y ∈ cur ∨ ∃ c ∈ cur, y ∈ prereqSuccs store c := by
  simp [closeStep, List.mem_dedup, List.mem_append, List.mem_flatMap]

theorem closeStep_mem_ext {store : List Triple} {c₁ c₂ : List String}
    (h : ∀ a, a ∈ c₁ ↔ a ∈ c₂) :
    ∀ a, a ∈ closeStep store c₁ ↔ a ∈ closeStep store c₂ := by
  intro a
  rw [mem_closeStep, mem_closeStep]
  constructor
  · rintro (ha | ⟨c, hc, ha⟩)
    · exact Or.inl ((h a).mp ha)
    · exact Or.inr ⟨c, (h c).mp hc, ha⟩
  · rintro (ha | ⟨c, hc, ha⟩)
    · exact Or.inl ((h a).mpr ha)
    · exact Or.inr ⟨c, (h c).mpr hc, ha⟩

theorem prereqSuccs_subset_objs {store : List Triple} {c y : String}
    (h : y ∈ prereqSuccs store c) : y ∈ store.map (·.obj) := by
  rw [mem_prereqSuccs] at h
  exact List.mem_map.mpr ⟨Triple.mk c prerequisiteP y, h, rfl⟩

/-- Every iterate of the saturation stays inside the store's object column. -/
theorem iterate_closeStep_subset_objs (store : List Triple) (x : String) :
    ∀ k y, y ∈ (closeStep store)^[k] (prereqSuccs store x) → y ∈ store.map (·.obj) := by
  intro k
  induction k with
  | zero =>
    intro y hy
    exact prereqSuccs_subset_objs hy
  | succ k ih =>
    intro y hy
    rw [Function.iterate_succ_apply', mem_closeStep] at hy
    rcases hy with hy | ⟨c, _, hy⟩
    · exact ih y hy
    · exact prereqSuccs_subset_objs hy

theorem mem_iterate_closeStep_succ {store : List Triple} {init : List String}
    {k : Nat} {y : String} (h : y ∈ (closeStep store)^[k] init) :
    y ∈ (closeStep store)^[k + 1] init := by
  rw [Function.iterate_succ_apply', mem_closeStep]
  exact Or.inl h

theorem mem_iterate_closeStep_mono {store : List Triple} {init : List String}
    {k m : Nat} (hkm : k ≤ m) {y : String}
    (h : y ∈ (closeStep store)^[k] init) : y ∈ (closeStep store)^[m] init := by
  induction m with
  | zero =>
    have : k = 0 := Nat.le_zero.mp hkm
    subst this
    exact h
  | succ m ih =>
    rcases Nat.lt_or_ge k (m + 1) with hk | hk
    · exact mem_iterate_closeStep_succ (ih (Nat.lt_succ_iff.mp hk))
    · have : k = m + 1 := Nat.le_antisymm hkm hk
      subst this
      exact h

/-- The node set of the `k`-th saturation round. -/
def reachStage (store : List Triple) (x : String) (k : Nat) : Finset String :=
  ((closeStep store)^[k] (prereqSuccs store x)).toFinset

theorem reachStage_subset_succ (store : List Triple) (x : String) (k : Nat) :
    reachStage store x k ⊆ reachStage store x (k + 1) := by
  intro a ha
  rw [reachStage, List.mem_toFinset] at *
  exact mem_iterate_closeStep_succ ha

theorem reachStage_subset_objs (store : List Triple) (x : String) (k : Nat) :
    reachStage store x k ⊆ (store.map (·.obj)).toFinset := by
  intro a ha
  rw [reachStage, List.mem_toFinset] at ha
  rw [List.mem_toFinset]
  exact iterate_closeStep_subset_objs store x k a ha

theorem reachStage_card_le (store : List Triple) (x : String) (k : Nat) :
    (reachStage store x k).card ≤ reachFuel store := by
  calc (reachStage store x k).card
      ≤ (store.map (·.obj)).toFinset.card :=
        Finset.card_le_card (reachStage_subset_objs store x k)
    _ = reachFuel store := List.card_toFinset _

/-- If a saturation round changes nothing (as a set), every later round
agrees with it. -/
theorem reachStage_stable (store : List Triple) (x : String) {k : Nat}
    (h : reachStage store x (k + 1) = reachStage store x k) :
    ∀ m, k ≤ m → reachStage store x m = reachStage store x k := by
  intro m hm
  induction m with
  | zero =>
    have : k = 0 := Nat.le_zero.mp hm
    subst this
    rfl
  | succ m ih =>
    rcases Nat.lt_or_ge k (m + 1) with hk | hk
    · have hkm : k ≤ m := Nat.lt_succ_iff.mp hk
      have hm' : reachStage store x m = reachStage store x k := ih hkm
      have hmem : ∀ a, a ∈ (closeStep store)^[m] (prereqSuccs store x) ↔
          a ∈ (closeStep store)^[k] (prereqSuccs store x) := by
        intro a
        have := Finset.ext_iff.mp hm' a
        rwa [reachStage, reachStage, List.mem_toFinset, List.mem_toFinset] at this
      have hstep : ∀ a, a ∈ (closeStep store)^[m + 1] (prereqSuccs store x) ↔
          a ∈ (closeStep store)^[k + 1] (prereqSuccs store x) := by
        intro a
        rw [Function.iterate_succ_apply', Function.iterate_succ_apply']
        exact closeStep_mem_ext hmem a
      have : reachStage store x (m + 1) = reachStage store x (k + 1) := by
        apply Finset.ext
        intro a
        rw [reachStage, reachStage, List.mem_toFinset, List.mem_toFinset]
        exact hstep a
      rw [this, h]
    · have : k = m + 1 := Nat.le_antisymm hm hk
      subst this
      rfl

/-- Some round at or below the fuel budget reaches a fixpoint (pigeonhole on
the cardinality of the stages). -/
theorem reachStage_exists_fixpoint (store : List Triple) (x : String) :
    ∃ k ≤ reachFuel store, reachStage store x (k + 1) = reachStage store x k := by
  by_contra hcon
  push_neg at hcon
  have grow : ∀ n, n ≤ reachFuel store + 1 → n ≤ (reachStage store x n).card := by
    intro n
    induction n with
    | zero => intro _; exact Nat.zero_le _
    | succ n ih =>
      intro hn
      have hnB : n ≤ reachFuel store := Nat.lt_succ_iff.mp (Nat.lt_of_lt_of_le (Nat.lt_succ_self n) hn)
      have hne : reachStage store x (n + 1) ≠ reachStage store x n := hcon n hnB
      have hss : reachStage store x n ⊂ reachStage store x (n + 1) :=
        Finset.ssubset_iff_subset_ne.mpr ⟨reachStage_subset_succ store x n, fun h => hne h.symm⟩
      have hlt : (reachStage store x n).card < (reachStage store x (n + 1)).card :=
        Finset.card_lt_card hss
      have hn' : n ≤ (reachStage store x n).card := ih (Nat.le_of_succ_le hn)
      exact Nat.succ_le_of_lt (Nat.lt_of_le_of_lt hn' hlt)
  have h1 : reachFuel store + 1 ≤ (reachStage store x (reachFuel store + 1)).card :=
    grow (reachFuel store + 1) (Nat.le_refl _)
  have h2 : (reachStage store x (reachFuel store + 1)).card ≤ reachFuel store :=
    reachStage_card_le store x (reachFuel store + 1)
  exact Nat.not_succ_le_self (reachFuel store) (Nat.le_trans h1 h2)

/-- `reachPlus` is closed under one more saturation round. -/
theorem reachPlus_closeStep_fixpoint (store : List Triple) (x : String) :
    ∀ y, y ∈ closeStep store (reachPlus store x) ↔ y ∈ reachPlus store x := by
  obtain ⟨k, hk, hfix⟩ := reachStage_exists_fixpoint store x
  have hB : reachStage store x (reachFuel store) = reachStage store x k :=
    reachStage_stable store x hfix (reachFuel store) hk
  have hB1 : reachStage store x (reachFuel store + 1) = reachStage store x k :=
    reachStage_stable store x hfix (reachFuel store + 1) (Nat.le_succ_of_le hk)
  intro y
  have hmem : y ∈ (closeStep store)^[reachFuel store + 1] (prereqSuccs store x) ↔
      y ∈ (closeStep store)^[reachFuel store] (prereqSuccs store x) := by
    have := Finset.ext_iff.mp (hB1.trans hB.symm) y
    rwa [reachStage, reachStage, List.mem_toFinset, List.mem_toFinset] at this
  rw [reachPlus, ← Function.iterate_succ_apply' (closeStep store)]
  exact hmem

/-- Soundness: every node produced by the saturation is reachable through
one or more `prerequisite` edges. -/
theorem iterate_closeStep_sound (store : List Triple) (x : String) :
    ∀ k y, y ∈ (closeStep store)^[k] (prereqSuccs store x) →
      Relation.TransGen (PrereqRel store) x y := by
  intro k
  induction k with
  | zero =>
    intro y hy
    exact Relation.TransGen.single (mem_prereqSuccs.mp hy)
  | succ k ih =>
    intro y hy
    rw [Function.iterate_succ_apply', mem_closeStep] at hy
    rcases hy with hy | ⟨c, hc, hy⟩
    · exact ih y hy
    · exact Relation.TransGen.tail (ih c hc) (mem_prereqSuccs.mp hy)

/-- Completeness: every node reachable through one or more `prerequisite`
edges is produced by the saturation. -/
theorem reachPlus_complete (store : List Triple) (x : String) {y : String}
    (h : Relation.TransGen (PrereqRel store) x y) : y ∈ reachPlus store x := by
  induction h with
  | single hedge =>
    exact mem_iterate_closeStep_mono (Nat.zero_le _) (mem_prereqSuccs.mpr hedge)
  | tail _ hedge ih =>
    rename_i c _ _
    apply (reachPlus_closeStep_fixpoint store x _).mp
    rw [mem_closeStep]
    exact Or.inr ⟨c, ih, mem_prereqSuccs.mpr hedge⟩

/-- Membership in `reachPlus` is exactly `prerequisite`-reachability. -/
theorem mem_reachPlus_iff (store : List Triple) (x y : String) :
    y ∈ reachPlus store x ↔ Relation.TransGen (PrereqRel store) x y :=
  ⟨iterate_closeStep_sound store x (reachFuel store) y, reachPlus_complete store x⟩

/-- Membership in the result of `infer_skill_prerequisites`: reachability
through one or more `prerequisite` edges plus possession of a `skillName`. -/
theorem mem_infer_skill_prerequisites (store : List Triple) (skill x : String) :
    x ∈ infer_skill_prerequisites store skill ↔
      Relation.TransGen (PrereqRel store) skill x ∧
        ∃ n, (Triple.mk x skillNameP n) ∈ store := by
  simp only [infer_skill_prerequisites, prereqRows, List.mem_map, List.mem_flatMap]
  constructor
  · rintro ⟨⟨p, n⟩, ⟨q, hq, m, hm, heq⟩, hx⟩
    injection heq with h1 h2
    subst h1
    subst hx
    exact ⟨(mem_reachPlus_iff store skill q).mp hq, m, mem_namesOf.mp hm⟩
  · rintro ⟨hreach, n, hn⟩
    exact ⟨(x, n), ⟨x, (mem_reachPlus_iff store skill x).mpr hreach,
      n, mem_namesOf.mpr hn, rfl⟩, rfl⟩

/-! ## ReasoningEngine.find_related_skills (`reasoning_engine.py` 46–62)
and the `/api/skills/{skill_id}/related` endpoint (`main.py` 185–196)

The method interpolates the caller's `depth` into
`SELECT DISTINCT ?related ?skillName WHERE { <skill> gkf:relatedTo{1,depth}
?related . ?related gkf:skillName ?skillName } LIMIT 20`
and performs no validation of its own.

* For `depth ≥ 1` the path `relatedTo{1,depth}` denotes the set of nodes
  reachable through 1..depth `relatedTo` edges; the query has `LIMIT 20`
  but no `ORDER BY`, so the store enumerates the solution set in an
  implementation-defined order and the limit keeps the first 20 of that
  enumeration.  The enumeration is the explicit `rows` argument,
  constrained in theorems to be a permutation of `relatedSolutions`.
* For `depth < 1` the quantifier `{1,depth}` is malformed, the store
  rejects the query, and `TripleStoreManager.query` swallows the error and
  returns `[]` (lines 93–95).

The HTTP endpoint `get_related_skills` declares
`depth: int = Query(2, ge=1, le=5)`, so FastAPI rejects any request with
`depth` outside `[1,5]` with a 422 validation error before the handler —
and hence any traversal — runs. -/

/-- One-step `relatedTo` successors of `x` (a solution set). -/
def relSuccs (store : List Triple) (x : String) : List String :=
  ((store.filter (fun t => t.subj == x && t.pred == relatedToP)).map (·.obj)).dedup

/-- One bounded-expansion round: keep the current nodes and add their
one-step `relatedTo` successors. -/
def hopExpand (store : List Triple) (cur : List String) : List String :=
  (cur ++ cur.flatMap (relSuccs store)).dedup

/-- Value of the property path `<x> gkf:relatedTo{1,d} ?related`: nodes
reachable from `x` through at least 1 and at most `d` `relatedTo` edges. -/
def relatedWithin (store : List Triple) (x : String) (d : Nat) : List String :=
  match d with
  | 0 => []
  | Nat.succ k => (hopExpand store)^[k] (relSuccs store x)

/-- The (unordered) solution set of the related-skills query: nodes within
the hop bound that carry a `gkf:skillName`. -/
def relatedSolutions (store : List Triple) (x : String) (d : Nat) : List String :=
  (relatedWithin store x d).filter (fun y => !(namesOf store y).isEmpty)

/-- `ReasoningEngine.find_related_skills`: no depth validation.  `rows` is
the store's enumeration of the solution set (no `ORDER BY`); `LIMIT 20`
keeps its first 20 entries.  A malformed quantifier (`depth < 1`) is a
store-side query error that `TripleStoreManager.query` turns into `[]`. -/
def find_related_skills (store : List Triple) (skill : String) (depth : ℤ)
    (rows : List String) : List String :=
  if depth < 1 then [] else rows.take 20

/-- The rows argument is a legitimate store answer: some enumeration of the
solution set of the query `find_related_skills` sends for this depth. -/
def ValidRelatedRows (store : List Triple) (skill : String) (depth : ℤ)
    (rows : List String) : Prop :=
  rows.Perm (relatedSolutions store skill depth.toNat)

/-- `GET /api/skills/{skill_id}/related` (`main.py` 185–196): FastAPI's
`Query(2, ge=1, le=5)` constraint rejects out-of-range `depth` with a 422
validation error before the handler body builds the skill URI and calls
`find_related_skills`. -/
def get_related_skills (store : List Triple) (skillId : String) (depth : ℤ)
    (rows : List String) : Except String (List String) :=
  if depth < 1 ∨ 5 < depth then
    Except.error "422 Unprocessable Entity: depth must be within range [1, 5]"
  else
    Except.ok (find_related_skills store ("http://gkf.org/data/Skill/" ++ skillId) depth rows)

/-! ## ReasoningEngine.generate_learning_path (`reasoning_engine.py` 100–164) -/

/-- `gkf:courseName` values attached to node `c` (a solution set). -/
def courseNamesOf (store : List Triple) (c : String) : List String :=
  ((store.filter (fun t => t.subj == c && t.pred == courseNameP)).map (·.obj)).dedup

/-- A row of the per-skill course query
`SELECT ?course ?courseName ?difficulty`. -/
structure CourseRow where
  course : String
  courseName : String
  difficulty : Option String
deriving DecidableEq, Repr

/-- The `OPTIONAL { ?course gkf:difficulty ?difficulty }` clause: a left
join, so a course with no difficulty yields one row with the variable
unbound, and a course with several difficulty triples yields one row per
value. -/
def difficultyOptions (store : List Triple) (c : String) : List (Option String) :=
  let ds := ((store.filter (fun t => t.subj == c && t.pred == difficultyP)).map (·.obj)).dedup
  if ds.isEmpty then [none] else ds.map some

/-- `ORDER BY ?difficulty` comparison: an unbound difficulty sorts before
any bound one, bound values sort lexicographically. -/
def difficultyLE (a b : Option String) : Bool :=
  match a, b with
  | none, _ => true
  | some _, none => false
  | some x, some y => x ≤ y

def insertByDifficulty (r : CourseRow) : List CourseRow → List CourseRow
  | [] => [r]
  | s :: ss =>
    if difficultyLE r.difficulty s.difficulty then r :: s :: ss
    else s :: insertByDifficulty r ss

def sortByDifficulty : List CourseRow → List CourseRow
  | [] => []
  | r :: rs => insertByDifficulty r (sortByDifficulty rs)

/-- Solution rows of the per-skill course query of `generate_learning_path`
(lines 140–152): courses typed `gkf:Course` that teach the skill, with
their names and optional difficulty, ordered by difficulty, `LIMIT 3`. -/
def courseRowsFor (store : List Triple) (skillUri : String) : List CourseRow :=
  let candidates :=
    ((store.filter (fun t => t.pred == teachesP && t.obj == skillUri)).map (·.subj)).dedup
  let typed := candidates.filter (fun c => store.contains (Triple.mk c rdfTypeP courseC))
  let rows := typed.flatMap (fun c =>
    (courseNamesOf store c).flatMap (fun n =>
      (difficultyOptions store c).map (fun d => CourseRow.mk c n d)))
  (sortByDifficulty rows).take 3

/-- Solution rows `(?skill, ?skillName)` of the required-skills query
`SELECT ?skill ?skillName WHERE { <job> gkf:requires ?skill . ?skill
gkf:skillName ?skillName }` (used by `generate_learning_path` and
`analyze_career_path`). -/
def requiredSkillRows (store : List Triple) (job : String) : List (String × String) :=
  (((store.filter (fun t => t.subj == job && t.pred == requiresP)).map (·.obj)).dedup).flatMap
    (fun s => (namesOf store s).map (fun n => (s, n)))

/-- One emitted learning-path step (the dict built at lines 157–162). -/
structure LearningPathStep where
  skill : String
  skill_uri : String
  prerequisites : List String
  recommended_courses : List CourseRow
deriving DecidableEq, Repr

/-- `ReasoningEngine.generate_learning_path`: fetch the job's required
skills, drop those in `currentSkills`, and for each remaining skill append
a step only when the course query returned at least one row
(`if courses:` at line 156). -/
def generate_learning_path (store : List Triple) (targetJob : String)
    (currentSkills : List String) : List LearningPathStep :=
  let skillsToLearn :=
    (requiredSkillRows store targetJob).filter (fun r => !(currentSkills.contains r.1))
  skillsToLearn.flatMap (fun r =>
    let courses := courseRowsFor store r.1
    if courses.isEmpty then []
    else [LearningPathStep.mk r.2 r.1 (infer_skill_prerequisites store r.1) courses])

/-- The skills that receive a learning-path step are exactly the required
skills that are not already held and have at least one matching course. -/
theorem generate_learning_path_skills (store : List Triple) (targetJob : String)
    (currentSkills : List String) :
    (generate_learning_path store targetJob currentSkills).map (·.skill_uri) =
      ((requiredSkillRows store targetJob).filter
        (fun r => !(currentSkills.contains r.1) && !(courseRowsFor store r.1).isEmpty)).map
        (·.1) := by
  unfold generate_learning_path
  induction requiredSkillRows store targetJob with
  | nil => rfl
  | cons r rs ih =>
    by_cases hheld : r.1 ∈ currentSkills
    · simpa [List.filter_cons, hheld] using ih
    · by_cases hcourses : courseRowsFor store r.1 = []
      · simpa [List.filter_cons, hheld, hcourses] using ih
      · simpa [List.filter_cons, hheld, hcourses] using ih

/-! ## ReasoningEngine.calculate_skill_similarity (`reasoning_engine.py` 168–196)

`SELECT (COUNT(?shared) as ?count) WHERE { { ?shared gkf:teaches <a> .
?shared gkf:teaches <b> } UNION { ?shared gkf:requires <a> . ?shared
gkf:requires <b> } }`: each `UNION` branch contributes one solution per
entity matching both triple patterns; the branches are concatenated, so an
entity matching both branches is counted twice. -/

/-- Solutions of the pattern `{ ?shared <p> <a> . ?shared <p> <b> }`:
entities carrying the `p` edge to both `a` and `b`. -/
def sharedBoth (store : List Triple) (p a b : String) : List String :=
  (((store.filter (fun t => t.pred == p && t.obj == a)).map (·.subj)).dedup).filter
    (fun x => decide ((Triple.mk x p b) ∈ store))

/-- `ReasoningEngine.calculate_skill_similarity`: the UNION row count
divided by 10, clamped to 1.0. -/
def calculate_skill_similarity (store : List Triple) (a b : String) : ℚ :=
  let sharedCount :=
    (sharedBoth store teachesP a b).length + (sharedBoth store requiresP a b).length
  min ((sharedCount : ℚ) / 10) 1

theorem mem_sharedBoth {store : List Triple} {p a b x : String} :
    x ∈ sharedBoth store p a b ↔
      (Triple.mk x p a) ∈ store ∧ (Triple.mk x p b) ∈ store := by
  simp only [sharedBoth, List.mem_filter, List.mem_dedup, List.mem_map,
    Bool.and_eq_true, beq_iff_eq, decide_eq_true_eq]
  constructor
  · rintro ⟨⟨t, ⟨ht, hp, ho⟩, hs⟩, hb⟩
    cases t
    subst hp; subst ho; subst hs
    exact ⟨ht, hb⟩
  · rintro ⟨ha, hb⟩
    exact ⟨⟨Triple.mk x p a, ⟨ha, rfl, rfl⟩, rfl⟩, hb⟩

theorem sharedBoth_nodup (store : List Triple) (p a b : String) :
    (sharedBoth store p a b).Nodup :=
  List.Nodup.filter _ (List.nodup_dedup _)

theorem sharedBoth_length_comm (store : List Triple) (p a b : String) :
    (sharedBoth store p a b).length = (sharedBoth store p b a).length := by
  apply length_eq_of_nodup_of_mem_iff (sharedBoth_nodup store p a b)
    (sharedBoth_nodup store p b a)
  intro x
  rw [mem_sharedBoth, mem_sharedBoth]
  exact and_comm

/-! ## ReasoningEngine.predict_skill_demand (`reasoning_engine.py` 198–228)

`SELECT (COUNT(DISTINCT ?job) as ?jobCount) (COUNT(DISTINCT ?course) as
?courseCount) WHERE { OPTIONAL { ?job gkf:requires <s> } OPTIONAL { ?course
gkf:teaches <s> } }`: the group pattern starts from the single empty
solution, left-joins the `?job` pattern, then left-joins the `?course`
pattern (a cross product when both sides are non-empty; an unbound column
when a side is empty).  `COUNT(DISTINCT ?v)` counts distinct bound values,
ignoring rows where the variable is unbound. -/

/-- Distinct jobs with a `gkf:requires` edge to the skill. -/
def jobsRequiring (store : List Triple) (s : String) : List String :=
  ((store.filter (fun t => t.pred == requiresP && t.obj == s)).map (·.subj)).dedup

/-- Distinct courses with a `gkf:teaches` edge to the skill. -/
def coursesTeaching (store : List Triple) (s : String) : List String :=
  ((store.filter (fun t => t.pred == teachesP && t.obj == s)).map (·.subj)).dedup

/-- The solution rows `(?job, ?course)` of the demand query: the left join
of the two optional patterns (`none` = unbound). -/
def demandSolutions (store : List Triple) (s : String) :
    List (Option String × Option String) :=
  let js := jobsRequiring store s
  let cs := coursesTeaching store s
  let afterJobs : List (Option String) := if js = [] then [none] else js.map some
  if cs = [] then afterJobs.map (fun j => (j, none))
  else afterJobs.flatMap (fun j => cs.map (fun c => (j, some c)))

/-- `ReasoningEngine.predict_skill_demand`:
`min(jobCount*2 + courseCount*1, 100.0)` over the two distinct counts. -/
def predict_skill_demand (store : List Triple) (s : String) : ℚ :=
  let sols := demandSolutions store s
  let jobCount := (((sols.map Prod.fst).filterMap id).dedup).length
  let courseCount := (((sols.map Prod.snd).filterMap id).dedup).length
  min ((jobCount * 2 + courseCount * 1 : ℕ) : ℚ) 100

/-- The first column of the embedded double-`OPTIONAL` left join holds
exactly the elements of the first operand. -/
theorem leftjoin_fst_mem {α β : Type} [DecidableEq α] [DecidableEq β]
    (js : List α) (cs : List β) (a : α) :
    a ∈ ((if cs = [] then
            (if js = [] then [none] else js.map some).map
              (fun j => (j, (none : Option β)))
          else
            (if js = [] then [none] else js.map some).flatMap
              (fun j => cs.map (fun c => (j, some c)))).map Prod.fst).filterMap id ↔
      a ∈ js := by
  by_cases hj : js = []
  · by_cases hc : cs = []
    · simp [hj, hc]
    · simp [hj, hc, List.mem_filterMap, List.mem_flatMap]
  · by_cases hc : cs = []
    · simp [hc, List.mem_filterMap, List.mem_map, hj]
    · obtain ⟨c, hcmem⟩ := List.exists_mem_of_ne_nil _ hc
      simp only [hj, hc, if_false, ite_false, List.mem_filterMap, List.mem_map,
        List.mem_flatMap, id_eq]
      constructor
      · rintro ⟨o, ⟨⟨j, c'⟩, ⟨j', hj', c'', _, heq⟩, hfst⟩, hoa⟩
        injection heq with h1 h2
        subst h1
        subst hfst
        subst hoa
        obtain ⟨j'', hj'', hjeq⟩ := hj'
        injection hjeq with h
        subst h
        exact hj''
      · intro ha
        exact ⟨some a, ⟨(some a, some c), ⟨some a, ⟨a, ha, rfl⟩, c, hcmem, rfl⟩, rfl⟩, rfl⟩

/-- The second column of the embedded double-`OPTIONAL` left join holds
exactly the elements of the second operand. -/
theorem leftjoin_snd_mem {α β : Type} [DecidableEq α] [DecidableEq β]
    (js : List α) (cs : List β) (b : β) :
    b ∈ ((if cs = [] then
            (if js = [] then [none] else js.map some).map
              (fun j => (j, (none : Option β)))
          else
            (if js = [] then [none] else js.map some).flatMap
              (fun j => cs.map (fun c => (j, some c)))).map Prod.snd).filterMap id ↔
      b ∈ cs := by
  by_cases hc : cs = []
  · simp [hc, List.mem_filterMap, List.mem_map]
  · by_cases hj : js = []
    · simp [hj, hc, List.mem_filterMap, List.mem_flatMap, List.mem_map]
    · obtain ⟨j, hjmem⟩ := List.exists_mem_of_ne_nil _ hj
      simp only [hj, hc, if_false, ite_false, List.mem_filterMap, List.mem_map,
        List.mem_flatMap, id_eq]
      constructor
      · rintro ⟨o, ⟨p, ⟨j', hj', c'', hc'', heq⟩, hsnd⟩, hob⟩
        have hps : p.2 = some c'' := by rw [← heq]
        rw [hps] at hsnd
        rw [← hsnd] at hob
        injection hob with h
        subst h
        exact hc''
      · intro hb
        exact ⟨some b, ⟨(some j, some b), ⟨some j, ⟨j, hjmem, rfl⟩, b, hb, rfl⟩, rfl⟩, rfl⟩

/-- The `?job` column of the left join counts exactly the jobs requiring
the skill: the optional course join does not disturb it. -/
theorem demand_jobCount (store : List Triple) (s : String) :
    ((((demandSolutions store s).map Prod.fst).filterMap id).dedup).length =
      (jobsRequiring store s).length := by
  have hnodup : (jobsRequiring store s).Nodup := List.nodup_dedup _
  apply dedup_length_eq_of_mem_iff hnodup
  intro a
  exact leftjoin_fst_mem (jobsRequiring store s) (coursesTeaching store s) a

/-- The `?course` column of the left join counts exactly the courses
teaching the skill: the optional job join does not disturb it. -/
theorem demand_courseCount (store : List Triple) (s : String) :
    ((((demandSolutions store s).map Prod.snd).filterMap id).dedup).length =
      (coursesTeaching store s).length := by
  have hnodup : (coursesTeaching store s).Nodup := List.nodup_dedup _
  apply dedup_length_eq_of_mem_iff hnodup
  intro b
  exact leftjoin_snd_mem (jobsRequiring store s) (coursesTeaching store s) b

/-! ## ReasoningEngine.analyze_career_path (`reasoning_engine.py` 288–329)

Both jobs' required-skill rows are fetched with the same
`{ <job> gkf:requires ?skill . ?skill gkf:skillName ?skillName }` query;
the Python then forms the *sets* of skill URIs
(`{s['skill']['value'] for s in ...}`), embedded as `Finset`s. -/

/-- The set of required-skill URIs of a job (skills lacking a `skillName`
do not produce query rows and so are absent, exactly as in the code). -/
def requiredSkillSet (store : List Triple) (job : String) : Finset String :=
  ((requiredSkillRows store job).map (·.1)).toFinset

/-- The dict returned by `analyze_career_path`. -/
structure CareerPathAnalysis where
  common_skills : Nat
  skills_to_acquire : Finset String
  skill_gap_percentage : ℚ
  learning_path : List LearningPathStep

/-- `ReasoningEngine.analyze_career_path`: set algebra on the two
required-skill sets; the gap percentage guards the empty end set
(`... * 100 if end_skill_uris else 0`, line 327). -/
def analyze_career_path (store : List Triple) (startJob endJob : String) :
    CareerPathAnalysis :=
  let startSkills := requiredSkillSet store startJob
  let endSkills := requiredSkillSet store endJob
  { common_skills := (startSkills ∩ endSkills).card
    skills_to_acquire := endSkills \ startSkills
    skill_gap_percentage :=
      if endSkills = ∅ then 0
      else (((endSkills \ startSkills).card : ℚ) / (endSkills.card : ℚ)) * 100
    -- `list(start_skill_uris)`: one enumeration of the start-skill set
    learning_path :=
      generate_learning_path store endJob
        (((requiredSkillRows store startJob).map (·.1)).dedup) }

/-! ## KnowledgeIntegrator (`knowledge_integrator.py`)

The integrator's store is partitioned into the two named graphs. -/

/-- The two partitions visible to `KnowledgeIntegrator`. -/
structure KStore where
  foundational : List Triple
  experiential : List Triple
deriving DecidableEq, Repr

/-- `query_foundational_knowledge` applied to the pattern
`<entity> ?p ?o .` (as done by `calculate_knowledge_confidence`, line 226):
the foundational triples whose subject is the entity. -/
def query_foundational_about (ks : KStore) (entity : String) : List Triple :=
  ks.foundational.filter (fun t => t.subj == entity)

/-- `KnowledgeIntegrator.get_course_popularity`:
`SELECT (COUNT(?interaction) as ?count) FROM <experiential>
WHERE { ?interaction a gkf:Interaction ; gkf:relatedTo <uri> }` —
the number of distinct interaction nodes typed `Interaction` and related
to the entity. -/
def get_course_popularity (ks : KStore) (uri : String) : Nat :=
  ((((ks.experiential.filter
        (fun t => t.pred == rdfTypeP && t.obj == interactionC)).map (·.subj)).dedup).filter
    (fun i => decide ((Triple.mk i relatedToP uri) ∈ ks.experiential))).length

/-- `KnowledgeIntegrator.calculate_knowledge_confidence` (lines 219–244):
`0.7` if the entity is the subject of some foundational triple, plus
`min(count/100, 0.3)` when the interaction count is positive, clamped
to `1.0`. -/
def calculate_knowledge_confidence (ks : KStore) (entity : String) : ℚ :=
  let foundationalExists := !(query_foundational_about ks entity).isEmpty
  let experientialCount := get_course_popularity ks entity
  let base : ℚ := if foundationalExists then 7/10 else 0
  let experiential : ℚ :=
    if experientialCount > 0 then min ((experientialCount : ℚ) / 100) (3/10) else 0
  min (base + experiential) 1

/-- Does any foundational triple reference the entity in any position?
Modelled from the spec: "`0.7` flat bonus if any Foundational triple
references the entity" — stated for comparison with the code's
subject-only check. -/
def foundationalReferences (ks : KStore) (entity : String) : Bool :=
  ks.foundational.any (fun t => t.subj == entity || t.pred == entity || t.obj == entity)

/-- Modelled from the spec: the confidence formula with the flat bonus
granted whenever any foundational triple references the entity (any
position), for comparison with `calculate_knowledge_confidence`. -/
def knowledge_confidence_specRead (ks : KStore) (entity : String) : ℚ :=
  min ((if foundationalReferences ks entity then (7 : ℚ)/10 else 0) +
    min ((get_course_popularity ks entity : ℚ) / 100) (3/10)) 1

/-- `KnowledgeIntegrator.add_foundational_knowledge` (lines 30–56): for
every subject of an `rdf:type` triple of the fragment
(`graph.subjects(RDF.type, None)`), add an `rdf:type gkf:FoundationalKnowledge`
triple, then upload the fragment to the foundational named graph.
Returns the enlarged fragment and the target graph URI. -/
def add_foundational_knowledge (fragment : List Triple) : List Triple × String :=
  let typedSubjects :=
    ((fragment.filter (fun t => t.pred == rdfTypeP)).map (·.subj)).dedup
  (fragment ++ typedSubjects.map (fun s => Triple.mk s rdfTypeP foundationalKnowledgeC),
    foundationalGraphURI)

/-! ## Concrete stores for the claims' example instances -/

/-- Job `J` requires `S1`,`S2`,`S3`; courses exist for `S1` and `S3` only. -/
def c1ExStore : List Triple :=
  [Triple.mk "J" requiresP "S1", Triple.mk "J" requiresP "S2", Triple.mk "J" requiresP "S3",
   Triple.mk "S1" skillNameP "s1", Triple.mk "S2" skillNameP "s2", Triple.mk "S3" skillNameP "s3",
   Triple.mk "C1" rdfTypeP courseC, Triple.mk "C1" courseNameP "c1", Triple.mk "C1" teachesP "S1",
   Triple.mk "C3" rdfTypeP courseC, Triple.mk "C3" courseNameP "c3", Triple.mk "C3" teachesP "S3"]

/-- Job `J` requires the named skill `S1`, but no course teaches `S1`. -/
def c1GapStore : List Triple :=
  [Triple.mk "J" requiresP "S1", Triple.mk "S1" skillNameP "s1"]

/-- A six-hop `relatedTo` chain `X → n1 → … → n6`, every node named. -/
def c2ChainStore : List Triple :=
  [Triple.mk "X" relatedToP "n1", Triple.mk "n1" relatedToP "n2",
   Triple.mk "n2" relatedToP "n3", Triple.mk "n3" relatedToP "n4",
   Triple.mk "n4" relatedToP "n5", Triple.mk "n5" relatedToP "n6",
   Triple.mk "n1" skillNameP "n1", Triple.mk "n2" skillNameP "n2",
   Triple.mk "n3" skillNameP "n3", Triple.mk "n4" skillNameP "n4",
   Triple.mk "n5" skillNameP "n5", Triple.mk "n6" skillNameP "n6"]

/-- `n` interaction nodes, each typed `gkf:Interaction` and related to `e`. -/
def interactionTriples (n : Nat) (e : String) : List Triple :=
  (List.range n).flatMap (fun i =>
    [Triple.mk ("I" ++ toString i) rdfTypeP interactionC,
     Triple.mk ("I" ++ toString i) relatedToP e])

/-- Foundational partition references `E` only in object position. -/
def c3RefStore : KStore := KStore.mk [Triple.mk "A" teachesP "E"] []

/-- `E` is a foundational subject; 50 recorded interactions. -/
def c3Found50 : KStore := KStore.mk [Triple.mk "E" skillNameP "e"] (interactionTriples 50 "E")

/-- `E` is a foundational subject; 10 recorded interactions. -/
def c3Found10 : KStore := KStore.mk [Triple.mk "E" skillNameP "e"] (interactionTriples 10 "E")

/-- `E` absent from the foundational partition; 10 recorded interactions. -/
def c3None10 : KStore := KStore.mk [] (interactionTriples 10 "E")

/-- Prerequisite chain `A → B → C` with `B`, `C` named. -/
def c4ChainStore : List Triple :=
  [Triple.mk "A" prerequisiteP "B", Triple.mk "B" prerequisiteP "C",
   Triple.mk "B" skillNameP "name B", Triple.mk "C" skillNameP "name C"]

/-- Prerequisite cycle `A → B → A` with both nodes named. -/
def c4CycleStore : List Triple :=
  [Triple.mk "A" prerequisiteP "B", Triple.mk "B" prerequisiteP "A",
   Triple.mk "A" skillNameP "name A", Triple.mk "B" skillNameP "name B"]

/-- `A → B` where `B` carries two `skillName` values. -/
def c4DupStore : List Triple :=
  [Triple.mk "A" prerequisiteP "B",
   Triple.mk "B" skillNameP "first name", Triple.mk "B" skillNameP "second name"]

/-- `A → B` where `B` carries no `skillName`. -/
def c4NoNameStore : List Triple :=
  [Triple.mk "A" prerequisiteP "B"]

/-- Depth-1 hub `A` plus twenty depth-2 nodes `B0..B19` around `X`. -/
def c5StarStore : List Triple :=
  [Triple.mk "X" relatedToP "A", Triple.mk "A" skillNameP "name A"]
  ++ (List.range 20).map (fun i => Triple.mk "A" relatedToP ("B" ++ toString i))
  ++ (List.range 20).map (fun i =>
      Triple.mk ("B" ++ toString i) skillNameP ("B" ++ toString i))

/-- A store enumeration of the depth-2 solution set around `X` that lists
the twenty depth-2 nodes before the depth-1 hub. -/
def c5RowsLate : List String :=
  (List.range 20).map (fun i => "B" ++ toString i) ++ ["A"]

/-- A fragment whose only subject carries no `rdf:type` triple. -/
def c6Frag : List Triple := [Triple.mk "S1" skillNameP "Python"]

/-- A fragment whose subject carries an `rdf:type` triple. -/
def c6TypedFrag : List Triple := [Triple.mk "S" rdfTypeP courseC]

/-- Sixty jobs requiring `S`, ten courses teaching `S`. -/
def c8Store : List Triple :=
  (List.range 60).map (fun i => Triple.mk ("J" ++ toString i) requiresP "S")
  ++ (List.range 10).map (fun i => Triple.mk ("C" ++ toString i) teachesP "S")

/-- Start job `JA` requires the named `S1`; end job `JB` requires nothing. -/
def c9Store : List Triple :=
  [Triple.mk "JA" requiresP "S1", Triple.mk "S1" skillNameP "s1"]

/-- `predict_skill_demand` in closed form: the two `COUNT(DISTINCT …)`
results are exactly the sizes of the two independent join operands. -/
theorem predict_skill_demand_eq (store : List Triple) (s : String) :
    predict_skill_demand store s =
      min (((jobsRequiring store s).length * 2 +
        (coursesTeaching store s).length * 1 : ℕ) : ℚ) 100 := by
  simp only [predict_skill_demand]
  rw [demand_jobCount, demand_courseCount]

/-! ## The claims -/

set_option maxRecDepth 4000

/-- Claim C1, amended: for every target job and list of held skills,
`generate_learning_path` emits one step for each required skill that is not
already held **and has at least one course teaching it**; a required skill
with zero matching courses is omitted from the path rather than emitted
with an empty course list.  In particular, if job `J` requires
`{S1, S2, S3}`, `currentSkills = {S2}`, and courses teach `S1` and `S3`,
the result has steps for exactly `S1` and `S3`. -/
theorem C1_learning_path_amended :
    (∀ (store : List Triple) (job : String) (cur : List String),
      (generate_learning_path store job cur).map (·.skill_uri) =
        ((requiredSkillRows store job).filter
          (fun r => !(cur.contains r.1) && !(courseRowsFor store r.1).isEmpty)).map (·.1))
    ∧ (generate_learning_path c1ExStore "J" ["S2"]).map (·.skill_uri) = ["S1", "S3"] :=
  ⟨generate_learning_path_skills, by decide⟩

/-- Claim C1, counterexample to the claim as stated: job `J` requires the
named skill `S1`, the user holds nothing, no course teaches `S1` — the
claim demands a step for `S1` with an empty course list, but
`generate_learning_path` returns no step at all (`if courses:` at
`reasoning_engine.py` line 156). -/
theorem C1_counterexample :
    ("S1", "s1") ∈ requiredSkillRows c1GapStore "J"
    ∧ courseRowsFor c1GapStore "S1" = []
    ∧ generate_learning_path c1GapStore "J" [] = [] :=
  ⟨by decide, by decide, by decide⟩

/-- Claim C2, amended: depth validation lives in the HTTP layer, not in
`find_related_skills`: the endpoint declares `depth: int = Query(2, ge=1,
le=5)`, so every request with `depth` outside `[1,5]` is rejected with a
422 validation error before any traversal runs, while
`find_related_skills` itself performs no validation. -/
theorem C2_depth_validation_amended :
    ∀ (store : List Triple) (skillId : String) (depth : ℤ) (rows : List String),
      (depth < 1 ∨ 5 < depth) →
      get_related_skills store skillId depth rows =
        Except.error "422 Unprocessable Entity: depth must be within range [1, 5]" := by
  intro store skillId depth rows h
  unfold get_related_skills
  rw [if_pos h]

/-- Claim C2 witness: the endpoint rejects `depth = 6` for a concrete
store. -/
theorem C2_depth_validation_witness :
    ((6 : ℤ) < 1 ∨ 5 < (6 : ℤ)) ∧
      get_related_skills [] "python" 6 [] =
        Except.error "422 Unprocessable Entity: depth must be within range [1, 5]" :=
  ⟨Or.inr (by norm_num),
   C2_depth_validation_amended [] "python" 6 [] (Or.inr (by norm_num))⟩

/-- Claim C2, counterexample to the claim as stated: called directly with
the out-of-range depth 6, `find_related_skills` raises nothing — it
executes the traversal and returns the six chain nodes (including the node
six hops away); and with depth 0 it returns `[]` (the malformed-query
store error is swallowed), not an InvalidArgument failure. -/
theorem C2_counterexample :
    ValidRelatedRows c2ChainStore "X" 6 (relatedSolutions c2ChainStore "X" 6)
    ∧ find_related_skills c2ChainStore "X" 6 (relatedSolutions c2ChainStore "X" 6) =
        ["n1", "n2", "n3", "n4", "n5", "n6"]
    ∧ "n6" ∈ find_related_skills c2ChainStore "X" 6 (relatedSolutions c2ChainStore "X" 6)
    ∧ find_related_skills c2ChainStore "X" 0 (relatedSolutions c2ChainStore "X" 0) = [] := by
  refine ⟨List.Perm.refl _, by decide, by decide, by decide⟩

/-- Claim C3, amended: `calculate_knowledge_confidence` returns
`min(1, F + min(popularity/100, 0.3))`, where `F` is `0.7` exactly when
some foundational triple has the entity **as its subject** (the code
queries the pattern `<entity> ?p ?o`, not an arbitrary occurrence); the
result always lies in `[0,1]`; a foundational subject occurrence plus 50
interactions gives `1.0`, plus 10 interactions gives `0.8`, and no
foundational subject occurrence plus 10 interactions gives `0.1`. -/
theorem C3_confidence_amended :
    (∀ (ks : KStore) (entity : String),
      calculate_knowledge_confidence ks entity =
        min ((if query_foundational_about ks entity ≠ [] then (7 : ℚ)/10 else 0) +
          min ((get_course_popularity ks entity : ℚ) / 100) (3/10)) 1)
    ∧ (∀ (ks : KStore) (entity : String),
        0 ≤ calculate_knowledge_confidence ks entity
        ∧ calculate_knowledge_confidence ks entity ≤ 1)
    ∧ calculate_knowledge_confidence c3Found50 "E" = 1
    ∧ calculate_knowledge_confidence c3Found10 "E" = 4/5
    ∧ calculate_knowledge_confidence c3None10 "E" = 1/10 := by
  have hform : ∀ (ks : KStore) (entity : String),
      calculate_knowledge_confidence ks entity =
        min ((if query_foundational_about ks entity ≠ [] then (7 : ℚ)/10 else 0) +
          min ((get_course_popularity ks entity : ℚ) / 100) (3/10)) 1 := by
    intro ks entity
    simp only [calculate_knowledge_confidence]
    have hexp : (if get_course_popularity ks entity > 0 then
        min ((get_course_popularity ks entity : ℚ) / 100) (3/10) else 0)
        = min ((get_course_popularity ks entity : ℚ) / 100) (3/10) := by
      rcases Nat.eq_zero_or_pos (get_course_popularity ks entity) with h | h
      · rw [h]
        norm_num [min_def]
      · rw [if_pos h]
    have hbase : (if (!(query_foundational_about ks entity).isEmpty) = true
        then (7 : ℚ)/10 else 0)
        = (if query_foundational_about ks entity ≠ [] then (7 : ℚ)/10 else 0) := by
      by_cases h : query_foundational_about ks entity = []
      · simp [h]
      · simp [h, List.isEmpty_iff]
    rw [hexp, hbase]
  refine ⟨hform, ?_, ?_, ?_, ?_⟩
  · intro ks entity
    rw [hform]
    constructor
    · apply le_min ?_ (by norm_num)
      apply add_nonneg
      · split_ifs <;> norm_num
      · apply le_min (by positivity) (by norm_num)
    · exact min_le_right _ _
  · have h1 : (query_foundational_about c3Found50 "E").isEmpty = false := by decide
    have h2 : get_course_popularity c3Found50 "E" = 50 := by decide
    simp only [calculate_knowledge_confidence, h1, h2]
    norm_num [min_def]
  · have h1 : (query_foundational_about c3Found10 "E").isEmpty = false := by decide
    have h2 : get_course_popularity c3Found10 "E" = 10 := by decide
    simp only [calculate_knowledge_confidence, h1, h2]
    norm_num [min_def]
  · have h1 : (query_foundational_about c3None10 "E").isEmpty = true := by decide
    have h2 : get_course_popularity c3None10 "E" = 10 := by decide
    simp only [calculate_knowledge_confidence, h1, h2]
    norm_num [min_def]

/-- Claim C3, counterexample to the claim as stated: the foundational
partition holds the single triple `⟨A, teaches, E⟩`, which references `E`
(in object position), so the claim's formula gives `0.7`; the code's
subject-pattern query `<E> ?p ?o` finds nothing, and
`calculate_knowledge_confidence` returns `0`. -/
theorem C3_counterexample :
    foundationalReferences c3RefStore "E" = true
    ∧ calculate_knowledge_confidence c3RefStore "E" = 0
    ∧ knowledge_confidence_specRead c3RefStore "E" = 7/10
    ∧ calculate_knowledge_confidence c3RefStore "E" ≠
        knowledge_confidence_specRead c3RefStore "E" := by
  have hcode : calculate_knowledge_confidence c3RefStore "E" = 0 := by
    have h1 : (query_foundational_about c3RefStore "E").isEmpty = true := by decide
    have h2 : get_course_popularity c3RefStore "E" = 0 := by decide
    simp only [calculate_knowledge_confidence, h1, h2]
    norm_num [min_def]
  have hread : knowledge_confidence_specRead c3RefStore "E" = 7/10 := by
    have h1 : foundationalReferences c3RefStore "E" = true := by decide
    have h2 : get_course_popularity c3RefStore "E" = 0 := by decide
    simp only [knowledge_confidence_specRead, h1, h2]
    norm_num [min_def]
  refine ⟨by decide, hcode, hread, ?_⟩
  rw [hcode, hread]
  norm_num

/-- Claim C4, amended: `infer_skill_prerequisites` returns exactly the
nodes reachable from the skill through one or more `prerequisite` edges
that carry a `skillName` (reachable nodes without a name are omitted), one
entry per (node, name) pair — so duplicates appear when a node has several
names — and the starting skill is excluded only when no cycle makes it
reachable from itself.  With edges `A → B → C` (each of `B`, `C` singly
named) it returns exactly `{B, C}`; on the cycle `A → B → A` it terminates
with the finite non-empty closure `{A, B}`. -/
theorem C4_prerequisites_amended :
    (∀ (store : List Triple) (skill x : String),
      x ∈ infer_skill_prerequisites store skill ↔
        Relation.TransGen (PrereqRel store) skill x
        ∧ ∃ n, (Triple.mk x skillNameP n) ∈ store)
    ∧ infer_skill_prerequisites c4ChainStore "A" = ["B", "C"]
    ∧ infer_skill_prerequisites c4CycleStore "A" = ["A", "B"] :=
  ⟨mem_infer_skill_prerequisites, by decide, by decide⟩

/-- Claim C4, counterexample to the claim as stated: on the cycle
`A → B → A` the starting skill `A` is *not* excluded; a node with two
`skillName` values is returned twice (the `DISTINCT` is over
`(?prereq, ?skillName)` pairs and the code keeps only the `prereq`
column); and a reachable node with no `skillName` is dropped from the
claimed transitive closure. -/
theorem C4_counterexample :
    "A" ∈ infer_skill_prerequisites c4CycleStore "A"
    ∧ ¬ (infer_skill_prerequisites c4DupStore "A").Nodup
    ∧ "B" ∉ infer_skill_prerequisites c4NoNameStore "A"
    ∧ Relation.TransGen (PrereqRel c4NoNameStore) "A" "B" :=
  ⟨by decide, by decide, by decide,
   Relation.TransGen.single
     (show (Triple.mk "A" prerequisiteP "B") ∈ c4NoNameStore by decide)⟩

/-- Claim C5, amended: for every store, entity and depth, and every
enumeration of the solution set the store may return,
`find_related_skills` returns at most 20 entries (`LIMIT 20`); but the
query has no `ORDER BY`, so which 20 survive depends only on the store's
enumeration order, with no preference for lower hop counts. -/
theorem C5_cap_amended :
    ∀ (store : List Triple) (skill : String) (depth : ℤ) (rows : List String),
      ValidRelatedRows store skill depth rows →
      (find_related_skills store skill depth rows).length ≤ 20 := by
  intro store skill depth rows hvalid
  unfold find_related_skills
  split
  · simp
  · rw [List.length_take]
    exact min_le_left _ _

/-- Claim C5 witness: the cap theorem applied to the empty store at
depth 2. -/
theorem C5_cap_witness :
    ValidRelatedRows [] "X" 2 []
    ∧ (find_related_skills [] "X" 2 []).length ≤ 20 := by
  have hvalid : ValidRelatedRows [] "X" 2 [] := by
    unfold ValidRelatedRows
    decide
  exact ⟨hvalid, C5_cap_amended [] "X" 2 [] hvalid⟩

/-- Claim C5, counterexample to the claim as stated: around `X` sit the
depth-1 neighbor `A` and twenty depth-2 nodes `B0..B19`; `c5RowsLate` is a
legitimate enumeration of the depth-2 solution set (a permutation of it)
in which the store lists the depth-2 nodes first.  `LIMIT 20` then keeps
all twenty depth-2 nodes and evicts the depth-1 neighbor `A`. -/
theorem C5_counterexample :
    ValidRelatedRows c5StarStore "X" 2 c5RowsLate
    ∧ (Triple.mk "X" relatedToP "A") ∈ c5StarStore
    ∧ (Triple.mk "X" relatedToP "B0") ∉ c5StarStore
    ∧ "A" ∉ find_related_skills c5StarStore "X" 2 c5RowsLate
    ∧ "B0" ∈ find_related_skills c5StarStore "X" 2 c5RowsLate := by
  refine ⟨?_, by decide, by decide, by decide, by decide⟩
  unfold ValidRelatedRows
  decide

/-- Claim C6, amended: `add_foundational_knowledge` tags every subject
that occurs in an `rdf:type` triple of the fragment
(`graph.subjects(RDF.type, None)`) with `gkf:FoundationalKnowledge`, keeps
the whole fragment, and uploads to the foundational named graph; subjects
occurring only in non-`rdf:type` triples are left untagged. -/
theorem C6_tagging_amended :
    (∀ (fragment : List Triple) (s o : String),
      (Triple.mk s rdfTypeP o) ∈ fragment →
        (Triple.mk s rdfTypeP foundationalKnowledgeC) ∈
          (add_foundational_knowledge fragment).1)
    ∧ (∀ (fragment : List Triple) (t : Triple),
        t ∈ fragment → t ∈ (add_foundational_knowledge fragment).1)
    ∧ (∀ fragment : List Triple,
        (add_foundational_knowledge fragment).2 = foundationalGraphURI) := by
  refine ⟨?_, ?_, fun fragment => rfl⟩
  · intro fragment s o hmem
    unfold add_foundational_knowledge
    apply List.mem_append.mpr
    right
    apply List.mem_map.mpr
    refine ⟨s, ?_, rfl⟩
    rw [List.mem_dedup]
    apply List.mem_map.mpr
    exact ⟨Triple.mk s rdfTypeP o, List.mem_filter.mpr ⟨hmem, by simp⟩, rfl⟩
  · intro fragment t ht
    unfold add_foundational_knowledge
    exact List.mem_append.mpr (Or.inl ht)

/-- Claim C6 witness: the tagging theorem applied to a one-triple typed
fragment. -/
theorem C6_tagging_witness :
    (Triple.mk "S" rdfTypeP courseC) ∈ c6TypedFrag
    ∧ (Triple.mk "S" rdfTypeP foundationalKnowledgeC) ∈
        (add_foundational_knowledge c6TypedFrag).1
    ∧ (Triple.mk "S" rdfTypeP courseC) ∈ (add_foundational_knowledge c6TypedFrag).1
    ∧ (add_foundational_knowledge c6TypedFrag).2 = foundationalGraphURI :=
  ⟨by decide, C6_tagging_amended.1 c6TypedFrag "S" courseC (by decide),
   C6_tagging_amended.2.1 c6TypedFrag (Triple.mk "S" rdfTypeP courseC) (by decide),
   C6_tagging_amended.2.2 c6TypedFrag⟩

/-- Claim C6, counterexample to the claim as stated: the fragment
`[⟨S1, skillName, "Python"⟩]` has the subject `S1`, but since `S1` has no
`rdf:type` triple, `graph.subjects(RDF.type, None)` never yields it and it
is left untagged. -/
theorem C6_counterexample :
    "S1" ∈ c6Frag.map (·.subj)
    ∧ (Triple.mk "S1" rdfTypeP foundationalKnowledgeC) ∉
        (add_foundational_knowledge c6Frag).1 :=
  ⟨by decide, by decide⟩

/-- Claim C7, amended: `TripleStoreManager` does **not** surface store
failures: every exception is caught and logged, `query` substitutes the
empty binding list (indistinguishable from a successful empty result), and
`upload_graph`/`update` substitute the plain failure flag `False`. -/
theorem C7_fallback_amended :
    ∀ (err : String),
      tsm_query (Except.error err : Except String (List (List (String × String)))) = []
      ∧ tsm_query (Except.error err : Except String (List (List (String × String)))) =
          tsm_query (Except.ok ([] : List (List (String × String))))
      ∧ tsm_upload_graph (Except.error err) = false
      ∧ tsm_update (Except.error err) = false :=
  fun _ => ⟨rfl, rfl, rfl, rfl⟩

/-- Claim C7, counterexample to the claim as stated: a store failure
("connection timed out") is not propagated verbatim — `query` returns the
empty result set and `upload_graph` returns the plain flag `False`,
exactly the silent fallbacks the claim rules out. -/
theorem C7_counterexample :
    tsm_query (Except.error "connection timed out" :
        Except String (List (List (String × String)))) = []
    ∧ tsm_upload_graph (Except.error "connection timed out") = false :=
  ⟨rfl, rfl⟩

/-- Claim C8: `predict_skill_demand` equals
`min(jobCount*2 + courseCount*1, 100)` where the two counts come from
independent optional joins (a skill absent from one side still receives
the other side's contribution), so the result always lies in `[0,100]`;
sixty jobs and ten courses give exactly `100.0`. -/
theorem C8_demand_clamp :
    (∀ (store : List Triple) (s : String),
      predict_skill_demand store s =
        min (((jobsRequiring store s).length * 2 +
          (coursesTeaching store s).length * 1 : ℕ) : ℚ) 100)
    ∧ (∀ (store : List Triple) (s : String),
        0 ≤ predict_skill_demand store s ∧ predict_skill_demand store s ≤ 100)
    ∧ predict_skill_demand c8Store "S" = 100 := by
  refine ⟨predict_skill_demand_eq, ?_, ?_⟩
  · intro store s
    rw [predict_skill_demand_eq]
    constructor
    · exact le_min (by positivity) (by norm_num)
    · exact min_le_right _ _
  · have hj : (jobsRequiring c8Store "S").length = 60 := by decide
    have hc : (coursesTeaching c8Store "S").length = 10 := by decide
    rw [predict_skill_demand_eq, hj, hc]
    norm_num [min_def]

/-- Claim C9: `analyze_career_path` computes the gap percentage as
`|end \ start| / |end| * 100` over the two required-skill sets and returns
`0` when the end job's required-skill set is empty (the
`... if end_skill_uris else 0` guard), with no division error. -/
theorem C9_gap_percentage :
    (∀ (store : List Triple) (startJob endJob : String),
      (analyze_career_path store startJob endJob).skill_gap_percentage =
        if requiredSkillSet store endJob = ∅ then 0
        else (((requiredSkillSet store endJob \ requiredSkillSet store startJob).card : ℚ) /
          ((requiredSkillSet store endJob).card : ℚ)) * 100)
    ∧ (analyze_career_path c9Store "JA" "JB").skill_gap_percentage = 0 :=
  ⟨fun _ _ _ => rfl, by decide⟩

/-- Claim C10: `calculate_skill_similarity` is symmetric in its two skill
arguments — each `UNION` branch counts entities bearing the edge to both
skills, a symmetric condition, so the `min(count/10, 1.0)` score is
commutative. -/
theorem C10_similarity_symmetric :
    ∀ (store : List Triple) (a b : String),
      calculate_skill_similarity store a b = calculate_skill_similarity store b a := by
  intro store a b
  simp only [calculate_skill_similarity]
  rw [sharedBoth_length_comm store teachesP a b, sharedBoth_length_comm store requiresP a b]
